import Mathlib

/-
Verification of the bit-generator dispatch contract of rkern/jsf64-bitgen.

The single source file, src/src/vendorized.h, declares the C struct

  typedef struct bitgen \x7b
      void *state;
      uint64_t (*next_uint64)(void *st);
      uint32_t (*next_uint32)(void *st);
      double (*next_double)(void *st);
      uint64_t (*next_raw)(void *st);
  \x7d bitgen_t;

We embed this struct shallowly: the opaque state pointer becomes a
natural-number address into a heap of state blocks, and each function
pointer becomes a total Lean function from a state block to a result value
paired with the mutated block (explicit state passing models the in-place
mutation through the pointer; a C function of signature T (*)(void *st)
receives only the state pointer, so it can read and rewrite the pointed-to
block and nothing else).  Machine integers are Nat with explicit bounds
below 2 ^ 64 and 2 ^ 32; the C double result is an exact dyadic rational,
modelled in Rat, which is faithful because the fixed derivation rule keeps
exactly 53 bits, the double mantissa width, so no rounding ever occurs.

The concrete operation bodies (the derivation rules for doubles, the
32-bit halving strategy, the raw widening) are code of this repository
that is not under src/; they are modelled from the spec, each such
definition marked by a doc comment starting with: Modelled from the spec.
-/

namespace Vendorized

/-- Address space of separately owned opaque state blocks: a C pointer
value is modelled as a natural-number address, and the heap maps every
address to the state block stored there. -/
abbrev Heap (σ : Type) : Type := Nat → σ

/-- Shallow embedding of the struct bitgen_t of src/src/vendorized.h:
the state field is the address of the owned opaque state block, and the
four function-pointer slots next_uint64, next_uint32, next_double and
next_raw are total functions from a state block to the produced word
paired with the mutated block. -/
structure bitgen_t (σ : Type) where
  state : Nat
  next_uint64 : σ → Nat × σ
  next_uint32 : σ → Nat × σ
  next_double : σ → Rat × σ
  next_raw : σ → Nat × σ

/-- One call through the dispatch record: load the state block stored at
the state address, run the bound operation on it, and store the mutated
block back at the same address.  The call returns the produced value, the
updated heap, and the record itself, which the operation cannot touch
because it receives only the state block. -/
def callOp {σ α : Type} (bg : bitgen_t σ) (f : σ → α × σ) (h : Heap σ) :
    α × Heap σ × bitgen_t σ :=
  ((f (h bg.state)).1, Function.update h bg.state (f (h bg.state)).2, bg)

/-- Modelled from the spec (section 6, missing from src/): a concrete
generator algorithm external to the core, providing its own state block
type, a native word width W, and one native draw per internal state
advance, every native word bounded below 2 ^ W. -/
structure Algorithm (σ : Type) where
  W : Nat
  native_draw : σ → Nat × σ
  draw_lt : ∀ s : σ, (native_draw s).1 < 2 ^ W

/-- Modelled from the spec (section 4.1, operation 3, missing from src/):
the fixed double derivation rule.  Keep exactly 53 bits of a 64-bit native
draw by right-shifting away the low 11 bits, then scale by 2 ^ -53; the
result is an exact dyadic rational. -/
def double_from_draw (d : Nat) : Rat :=
  ((d / 2 ^ 11 : Nat) : Rat) / 2 ^ 53

/-- Modelled from the spec (section 4.1, operation 2, missing from src/):
the state block of a generator using the halving strategy, namely the
native algorithm state plus the buffered still-unemitted half of the last
64-bit draw, when one is pending. -/
structure BufferedState (σ : Type) where
  native : σ
  buffer : Option Nat

/-- Modelled from the spec (section 4.1, operation 1, missing from src/):
next_uint64 forwards one native 64-bit draw and advances the native state
once. -/
def u64_op {σ : Type} (A : Algorithm σ) :
    BufferedState σ → Nat × BufferedState σ :=
  fun s => ((A.native_draw s.native).1, ⟨(A.native_draw s.native).2, s.buffer⟩)

/-- Modelled from the spec (section 4.1, operation 2, missing from src/):
next_uint32 under the halving strategy.  With an empty buffer it consumes
one native 64-bit draw, emits the low half and buffers the high half; with
a pending half it emits that half without drawing. -/
def u32_op {σ : Type} (A : Algorithm σ) :
    BufferedState σ → Nat × BufferedState σ :=
  fun s =>
    match s.buffer with
    | some v => (v, ⟨s.native, none⟩)
    | none =>
        ((A.native_draw s.native).1 % 2 ^ 32,
         ⟨(A.native_draw s.native).2, some ((A.native_draw s.native).1 / 2 ^ 32)⟩)

/-- Modelled from the spec (section 4.1, operation 3, missing from src/):
next_double consumes exactly one native 64-bit draw and applies the fixed
double derivation rule to it. -/
def double_op {σ : Type} (A : Algorithm σ) :
    BufferedState σ → Rat × BufferedState σ :=
  fun s =>
    (double_from_draw (A.native_draw s.native).1,
     ⟨(A.native_draw s.native).2, s.buffer⟩)

/-- Modelled from the spec (section 4.1, operation 4, missing from src/):
next_raw forwards the native word unchanged, widened to 64 bits only by
the ambient Nat representation, with no narrowing, no truncation and no
double construction. -/
def raw_op {σ : Type} (A : Algorithm σ) :
    BufferedState σ → Nat × BufferedState σ :=
  fun s => ((A.native_draw s.native).1, ⟨(A.native_draw s.native).2, s.buffer⟩)

/-- Modelled from the spec (sections 6 and 9, missing from src/): the
construction step that binds the four operation slots of one concrete
algorithm, together with the address of its owned state block, into one
dispatch record.  All four slots come from the single algorithm A and the
record offers no way to rebind a slot afterwards. -/
def construct {σ : Type} (A : Algorithm σ) (p : Nat) :
    bitgen_t (BufferedState σ) :=
  { state := p
    next_uint64 := u64_op A
    next_uint32 := u32_op A
    next_double := double_op A
    next_raw := raw_op A }

/-- K consecutive calls of one operation, keeping only the final state. -/
def iterate_op {σ α : Type} (f : σ → α × σ) : Nat → σ → σ
  | 0, s => s
  | k + 1, s => iterate_op f k (f s).2

/-- The list of values produced by K consecutive calls of one operation. -/
def outputs {σ α : Type} (f : σ → α × σ) : Nat → σ → List α
  | 0, _ => []
  | k + 1, s => (f s).1 :: outputs f k (f s).2

/-- A concrete 64-bit test algorithm used only to evaluate the theorems on
explicit inputs: a counter whose native draw is the state reduced modulo
2 ^ 64 and whose advance increments the state. -/
def ctr64 : Algorithm Nat :=
  { W := 64
    native_draw := fun s => (s % 2 ^ 64, s + 1)
    draw_lt := fun s => Nat.mod_lt s (by norm_num) }

/-- A concrete 32-bit-native test algorithm used only to evaluate the
theorems on explicit inputs. -/
def ctr32 : Algorithm Nat :=
  { W := 32
    native_draw := fun s => (s % 2 ^ 32, s + 1)
    draw_lt := fun s => Nat.mod_lt s (by norm_num) }

/-- A constant 64-bit test algorithm whose every native draw is the given
word v below 2 ^ 64; it shows every 64-bit word is an attainable output. -/
def const64 (v : Nat) (hv : v < 2 ^ 64) : Algorithm Nat :=
  { W := 64
    native_draw := fun s => (v, s)
    draw_lt := fun _ => hv }

/-! Helper lemmas shared by several theorems. -/

theorem double_from_draw_nonneg (d : Nat) : 0 ≤ double_from_draw d := by
  unfold double_from_draw
  positivity

theorem double_from_draw_lt_one {d : Nat} (hd : d < 2 ^ 64) :
    double_from_draw d < 1 := by
  unfold double_from_draw
  rw [div_lt_one (by norm_num)]
  have h : d / 2 ^ 11 < 2 ^ 53 := by
    rw [Nat.div_lt_iff_lt_mul (by norm_num)]
    calc d < 2 ^ 64 := hd
    _ = 2 ^ 53 * 2 ^ 11 := by norm_num
  exact_mod_cast h

theorem iterate_raw_eq {σ : Type} (A : Algorithm σ) (K : Nat) (s : σ)
    (b : Option Nat) :
    iterate_op (raw_op A) K ⟨s, b⟩ = ⟨iterate_op A.native_draw K s, b⟩ := by
  induction K generalizing s with
  | zero => rfl
  | succ k ih =>
      simp only [iterate_op, raw_op]
      exact ih _

theorem iterate_u32_eq {σ : Type} (A : Algorithm σ) (K : Nat) (s : σ) :
    iterate_op (u32_op A) (2 * K) ⟨s, none⟩
      = ⟨iterate_op A.native_draw K s, none⟩ := by
  induction K generalizing s with
  | zero => rfl
  | succ k ih =>
      have h2 : 2 * (k + 1) = 2 * k + 1 + 1 := by ring
      rw [h2]
      simp only [iterate_op, u32_op]
      exact ih _

/-! The claim theorems. -/

/-- C1: for every state of a 64-bit native algorithm, the value returned
by next_double equals the 64-bit native draw for that state shifted right
by 11 bits and then scaled by 2 ^ -53, as an exact dyadic rational, and
the shifted draw keeps exactly 53 bits. -/
theorem next_double_shifts_and_scales {σ : Type} (A : Algorithm σ)
    (hW : A.W = 64) (p : Nat) (h : Heap (BufferedState σ)) :
    (callOp (construct A p) (construct A p).next_double h).1
        = (((A.native_draw (h p).native).1 >>> 11 : Nat) : Rat)
            * ((2 : Rat) ^ 53)⁻¹
      ∧ (A.native_draw (h p).native).1 >>> 11 < 2 ^ 53 := by
  have hd : (A.native_draw (h p).native).1 < 2 ^ 64 := hW ▸ A.draw_lt _
  constructor
  · simp only [callOp, construct, double_op, double_from_draw,
      Nat.shiftRight_eq_div_pow, div_eq_mul_inv]
  · rw [Nat.shiftRight_eq_div_pow, Nat.div_lt_iff_lt_mul (by norm_num)]
    calc (A.native_draw (h p).native).1 < 2 ^ 64 := hd
    _ = 2 ^ 53 * 2 ^ 11 := by norm_num

/-- C1 witness: the theorem evaluated on the concrete counter algorithm at
state 5, where the draw 5 shifts to 0. -/
theorem next_double_shifts_and_scales_witness :
    (callOp (construct ctr64 0) (construct ctr64 0).next_double
        (fun _ => ⟨5, none⟩)).1
        = (((ctr64.native_draw
              ((fun _ => (⟨5, none⟩ : BufferedState Nat)) 0).native).1
                >>> 11 : Nat) : Rat) * ((2 : Rat) ^ 53)⁻¹
      ∧ (ctr64.native_draw
            ((fun _ => (⟨5, none⟩ : BufferedState Nat)) 0).native).1
              >>> 11 < 2 ^ 53 :=
  next_double_shifts_and_scales ctr64 rfl 0 (fun _ => ⟨5, none⟩)

/-- C2: for every state of a 64-bit native algorithm, next_double returns
a value that is never negative and never reaches 1.0; and when the
underlying draw is 0xFFFFFFFFFFFFFFFF the returned value is exactly
1 - 2 ^ -53. -/
theorem next_double_unit_range {σ : Type} (A : Algorithm σ)
    (hW : A.W = 64) (p : Nat) (h : Heap (BufferedState σ)) :
    0 ≤ (callOp (construct A p) (construct A p).next_double h).1
      ∧ (callOp (construct A p) (construct A p).next_double h).1 < 1
      ∧ ((A.native_draw (h p).native).1 = 2 ^ 64 - 1 →
          (callOp (construct A p) (construct A p).next_double h).1
            = 1 - ((2 : Rat) ^ 53)⁻¹) := by
  have hd : (A.native_draw (h p).native).1 < 2 ^ 64 := hW ▸ A.draw_lt _
  have hval : (callOp (construct A p) (construct A p).next_double h).1
      = double_from_draw (A.native_draw (h p).native).1 := rfl
  refine ⟨?_, ?_, ?_⟩
  · rw [hval]; exact double_from_draw_nonneg _
  · rw [hval]; exact double_from_draw_lt_one hd
  · intro hall
    rw [hval, hall]
    have hdiv : (2 ^ 64 - 1 : Nat) / 2 ^ 11 = 2 ^ 53 - 1 := by norm_num
    unfold double_from_draw
    rw [hdiv]
    have hcast : ((2 ^ 53 - 1 : Nat) : Rat) = 2 ^ 53 - 1 := by
      rw [Nat.cast_sub (by norm_num)]
      norm_num
    rw [hcast, sub_div, div_self (by norm_num : ((2 : Rat) ^ 53) ≠ 0),
      one_div]

/-- C2 witness: the theorem evaluated on the constant algorithm whose
every draw is 0xFFFFFFFFFFFFFFFF, so the returned double is exactly
1 - 2 ^ -53. -/
theorem next_double_unit_range_witness :
    0 ≤ (callOp (construct (const64 (2 ^ 64 - 1) (by norm_num)) 0)
          (construct (const64 (2 ^ 64 - 1) (by norm_num)) 0).next_double
          (fun _ => ⟨0, none⟩)).1
      ∧ (callOp (construct (const64 (2 ^ 64 - 1) (by norm_num)) 0)
          (construct (const64 (2 ^ 64 - 1) (by norm_num)) 0).next_double
          (fun _ => ⟨0, none⟩)).1 < 1
      ∧ (((const64 (2 ^ 64 - 1) (by norm_num)).native_draw
            ((fun _ => (⟨0, none⟩ : BufferedState Nat)) 0).native).1
              = 2 ^ 64 - 1 →
          (callOp (construct (const64 (2 ^ 64 - 1) (by norm_num)) 0)
            (construct (const64 (2 ^ 64 - 1) (by norm_num)) 0).next_double
            (fun _ => ⟨0, none⟩)).1 = 1 - ((2 : Rat) ^ 53)⁻¹) :=
  next_double_unit_range (const64 (2 ^ 64 - 1) (by norm_num)) rfl 0
    (fun _ => ⟨0, none⟩)

/-- C3: next_uint64 is deterministic in the state alone.  Two handles of
the same algorithm, constructed over two separately owned state blocks at
distinct addresses holding equal seed states, produce the identical
bit-for-bit value sequence over any N consecutive next_uint64 calls, and
in particular return the same value on their first call. -/
theorem next_uint64_deterministic_reproducible {σ : Type} (A : Algorithm σ)
    (pA pB : Nat) (h : Heap (BufferedState σ)) (_hne : pA ≠ pB)
    (hseed : h pA = h pB) :
    (∀ N : Nat,
      outputs (construct A pA).next_uint64 N (h pA)
        = outputs (construct A pB).next_uint64 N (h pB))
      ∧ (callOp (construct A pA) (construct A pA).next_uint64 h).1
          = (callOp (construct A pB) (construct A pB).next_uint64 h).1 := by
  constructor
  · intro N
    show outputs (u64_op A) N (h pA) = outputs (u64_op A) N (h pB)
    rw [hseed]
  · show (u64_op A (h pA)).1 = (u64_op A (h pB)).1
    rw [hseed]

/-- C3 witness: the counter algorithm with seed state 42 stored at the two
distinct addresses 0 and 1; the three-call sequences and the first values
coincide. -/
theorem next_uint64_deterministic_reproducible_witness :
    outputs (construct ctr64 0).next_uint64 3
        ((fun _ => (⟨42, none⟩ : BufferedState Nat)) 0)
      = outputs (construct ctr64 1).next_uint64 3
          ((fun _ => (⟨42, none⟩ : BufferedState Nat)) 1)
      ∧ (callOp (construct ctr64 0) (construct ctr64 0).next_uint64
            (fun _ => ⟨42, none⟩)).1
          = (callOp (construct ctr64 1) (construct ctr64 1).next_uint64
              (fun _ => ⟨42, none⟩)).1 :=
  ⟨(next_uint64_deterministic_reproducible ctr64 0 1 (fun _ => ⟨42, none⟩)
      (by decide) rfl).1 3,
   (next_uint64_deterministic_reproducible ctr64 0 1 (fun _ => ⟨42, none⟩)
      (by decide) rfl).2⟩

/-- C4: for a native word width W below 64, next_raw returns the native
word widened to 64 bits with no narrowing: the bits above position W are
all zero, the low W bits equal the algorithm-native draw exactly, and the
returned value is the untouched native draw, so neither the double
construction nor any truncation was applied. -/
theorem next_raw_widened_native {σ : Type} (A : Algorithm σ)
    (_hW : A.W < 64) (p : Nat) (h : Heap (BufferedState σ)) :
    (callOp (construct A p) (construct A p).next_raw h).1 >>> A.W = 0
      ∧ (callOp (construct A p) (construct A p).next_raw h).1 % 2 ^ A.W
          = (A.native_draw (h p).native).1
      ∧ (callOp (construct A p) (construct A p).next_raw h).1
          = (A.native_draw (h p).native).1 := by
  have hval : (callOp (construct A p) (construct A p).next_raw h).1
      = (A.native_draw (h p).native).1 := rfl
  have hd : (A.native_draw (h p).native).1 < 2 ^ A.W := A.draw_lt _
  refine ⟨?_, ?_, hval⟩
  · rw [hval, Nat.shiftRight_eq_div_pow]
    exact Nat.div_eq_of_lt hd
  · rw [hval]
    exact Nat.mod_eq_of_lt hd

/-- C4 witness: the 32-bit counter algorithm at state 7; the raw value 7
has zero upper bits and equals the native draw. -/
theorem next_raw_widened_native_witness :
    (callOp (construct ctr32 0) (construct ctr32 0).next_raw
        (fun _ => ⟨7, none⟩)).1 >>> ctr32.W = 0
      ∧ (callOp (construct ctr32 0) (construct ctr32 0).next_raw
          (fun _ => ⟨7, none⟩)).1 % 2 ^ ctr32.W
          = (ctr32.native_draw
              ((fun _ => (⟨7, none⟩ : BufferedState Nat)) 0).native).1
      ∧ (callOp (construct ctr32 0) (construct ctr32 0).next_raw
          (fun _ => ⟨7, none⟩)).1
          = (ctr32.native_draw
              ((fun _ => (⟨7, none⟩ : BufferedState Nat)) 0).native).1 :=
  next_raw_widened_native ctr32 (by decide) 0 (fun _ => ⟨7, none⟩)

/-- C5: for a 64-bit native algorithm under the halving strategy, two
consecutive next_uint32 calls from a state with an empty buffer consume
exactly one native 64-bit draw: the first call emits the low half and the
second the high half, both fit 32 bits, the two halves recombine to the
full draw so nothing is discarded, the native state has advanced exactly
once after both calls, and the buffer is empty again. -/
theorem next_uint32_halves_one_draw {σ : Type} (A : Algorithm σ)
    (hW : A.W = 64) (s : σ) :
    (u32_op A ⟨s, none⟩).1 = (A.native_draw s).1 % 2 ^ 32
      ∧ (u32_op A (u32_op A ⟨s, none⟩).2).1 = (A.native_draw s).1 / 2 ^ 32
      ∧ (u32_op A ⟨s, none⟩).1 < 2 ^ 32
      ∧ (u32_op A (u32_op A ⟨s, none⟩).2).1 < 2 ^ 32
      ∧ (u32_op A ⟨s, none⟩).1
          + 2 ^ 32 * (u32_op A (u32_op A ⟨s, none⟩).2).1
          = (A.native_draw s).1
      ∧ (u32_op A (u32_op A ⟨s, none⟩).2).2.native = (A.native_draw s).2
      ∧ (u32_op A (u32_op A ⟨s, none⟩).2).2.buffer = none := by
  have hd : (A.native_draw s).1 < 2 ^ 64 := hW ▸ A.draw_lt s
  refine ⟨rfl, rfl, ?_, ?_, ?_, rfl, rfl⟩
  · exact Nat.mod_lt _ (by norm_num)
  · show (A.native_draw s).1 / 2 ^ 32 < 2 ^ 32
    rw [Nat.div_lt_iff_lt_mul (by norm_num)]
    calc (A.native_draw s).1 < 2 ^ 64 := hd
    _ = 2 ^ 32 * 2 ^ 32 := by norm_num
  · exact Nat.mod_add_div _ _

/-- C5 witness: the counter algorithm at state 42; the halves are 42 and
0, recombining to the draw 42, with the native state advanced once. -/
theorem next_uint32_halves_one_draw_witness :
    (u32_op ctr64 ⟨42, none⟩).1 = (ctr64.native_draw 42).1 % 2 ^ 32
      ∧ (u32_op ctr64 (u32_op ctr64 ⟨42, none⟩).2).1
          = (ctr64.native_draw 42).1 / 2 ^ 32
      ∧ (u32_op ctr64 ⟨42, none⟩).1 < 2 ^ 32
      ∧ (u32_op ctr64 (u32_op ctr64 ⟨42, none⟩).2).1 < 2 ^ 32
      ∧ (u32_op ctr64 ⟨42, none⟩).1
          + 2 ^ 32 * (u32_op ctr64 (u32_op ctr64 ⟨42, none⟩).2).1
          = (ctr64.native_draw 42).1
      ∧ (u32_op ctr64 (u32_op ctr64 ⟨42, none⟩).2).2.native
          = (ctr64.native_draw 42).2
      ∧ (u32_op ctr64 (u32_op ctr64 ⟨42, none⟩).2).2.buffer = none :=
  next_uint32_halves_one_draw ctr64 rfl 42

/-- C6: state advancement corresponds 1:1 to native draws.  From any
initial state, K calls to next_uint64 or to next_double leave the very
state reached by K calls to next_raw; under the halving strategy the state
after 2K calls to next_uint32 from an empty buffer equals the state after
K calls to next_raw, so the state advances once per native draw, not once
per next_uint32 call; and K calls to next_raw advance the native state
exactly K times. -/
theorem state_advance_one_to_one {σ : Type} (A : Algorithm σ) (K : Nat)
    (s : σ) (b : Option Nat) :
    iterate_op (u64_op A) K ⟨s, b⟩ = iterate_op (raw_op A) K ⟨s, b⟩
      ∧ iterate_op (double_op A) K ⟨s, b⟩ = iterate_op (raw_op A) K ⟨s, b⟩
      ∧ iterate_op (u32_op A) (2 * K) ⟨s, none⟩
          = iterate_op (raw_op A) K ⟨s, none⟩
      ∧ (iterate_op (raw_op A) K ⟨s, b⟩).native
          = iterate_op A.native_draw K s := by
  have hdouble : ∀ (k : Nat) (t : σ),
      iterate_op (double_op A) k ⟨t, b⟩ = iterate_op (raw_op A) k ⟨t, b⟩ := by
    intro k
    induction k with
    | zero => intro t; rfl
    | succ m ih =>
        intro t
        simp only [iterate_op, double_op, raw_op]
        exact ih _
  refine ⟨rfl, hdouble K s, ?_, ?_⟩
  · rw [iterate_u32_eq, iterate_raw_eq]
  · rw [iterate_raw_eq]

theorem u32_op_val_lt {σ : Type} (A : Algorithm σ) (s : BufferedState σ)
    (hb : ∀ v : Nat, s.buffer = some v → v < 2 ^ 32) :
    (u32_op A s).1 < 2 ^ 32 := by
  rcases s with ⟨t, _ | v⟩
  · exact Nat.mod_lt _ (by norm_num)
  · exact hb v rfl

/-- C7: the four operation slots of a constructed record are all populated
from the single concrete algorithm A at construction time and bound
together with its state block address; and no call, through any operation
whatsoever, ever returns a record with a reassigned slot: the record
coming back from any call is the constructed record itself. -/
theorem ops_bound_atomically {σ : Type} (A : Algorithm σ) (p : Nat) :
    (construct A p).state = p
      ∧ (construct A p).next_uint64 = u64_op A
      ∧ (construct A p).next_uint32 = u32_op A
      ∧ (construct A p).next_double = double_op A
      ∧ (construct A p).next_raw = raw_op A
      ∧ ∀ (α : Type) (f : BufferedState σ → α × BufferedState σ)
          (h : Heap (BufferedState σ)),
          (callOp (construct A p) f h).2.2 = construct A p :=
  ⟨rfl, rfl, rfl, rfl, rfl, fun _ _ _ => rfl⟩

/-- C8: the dispatch record consists of exactly the state attribute and
the four operation slots next_uint64, next_uint32, next_double and
next_raw, so two records agreeing on those five fields are equal; and each
operation is a function of the opaque state block alone: two heaps
agreeing at the state address yield the same value from every one of the
four calls. -/
theorem interface_exactly_four_ops (σ : Type) :
    (∀ b1 b2 : bitgen_t σ, b1.state = b2.state →
        b1.next_uint64 = b2.next_uint64 → b1.next_uint32 = b2.next_uint32 →
        b1.next_double = b2.next_double → b1.next_raw = b2.next_raw →
        b1 = b2)
      ∧ ∀ (bg : bitgen_t σ) (h1 h2 : Heap σ), h1 bg.state = h2 bg.state →
          (callOp bg bg.next_uint64 h1).1 = (callOp bg bg.next_uint64 h2).1
          ∧ (callOp bg bg.next_uint32 h1).1 = (callOp bg bg.next_uint32 h2).1
          ∧ (callOp bg bg.next_double h1).1 = (callOp bg bg.next_double h2).1
          ∧ (callOp bg bg.next_raw h1).1 = (callOp bg bg.next_raw h2).1 := by
  constructor
  · intro b1 b2 hs h64 h32 hd hr
    cases b1
    cases b2
    simp_all
  · intro bg h1 h2 hh
    refine ⟨?_, ?_, ?_, ?_⟩ <;> simp [callOp, hh]

/-- C8 witness: the extensionality part applied to two copies of the
constructed counter record, and the state-alone part applied to two heaps
agreeing at address 0 but differing elsewhere. -/
theorem interface_exactly_four_ops_witness :
    construct ctr64 0 = construct ctr64 0
      ∧ ((callOp (construct ctr64 0) (construct ctr64 0).next_uint64
            (fun _ => ⟨1, none⟩)).1
          = (callOp (construct ctr64 0) (construct ctr64 0).next_uint64
              (fun n => if n = 0 then ⟨1, none⟩ else ⟨7, none⟩)).1
        ∧ (callOp (construct ctr64 0) (construct ctr64 0).next_uint32
            (fun _ => ⟨1, none⟩)).1
          = (callOp (construct ctr64 0) (construct ctr64 0).next_uint32
              (fun n => if n = 0 then ⟨1, none⟩ else ⟨7, none⟩)).1
        ∧ (callOp (construct ctr64 0) (construct ctr64 0).next_double
            (fun _ => ⟨1, none⟩)).1
          = (callOp (construct ctr64 0) (construct ctr64 0).next_double
              (fun n => if n = 0 then ⟨1, none⟩ else ⟨7, none⟩)).1
        ∧ (callOp (construct ctr64 0) (construct ctr64 0).next_raw
            (fun _ => ⟨1, none⟩)).1
          = (callOp (construct ctr64 0) (construct ctr64 0).next_raw
              (fun n => if n = 0 then ⟨1, none⟩ else ⟨7, none⟩)).1) :=
  ⟨(interface_exactly_four_ops (BufferedState Nat)).1 (construct ctr64 0)
      (construct ctr64 0) rfl rfl rfl rfl rfl,
   (interface_exactly_four_ops (BufferedState Nat)).2 (construct ctr64 0)
      (fun _ => ⟨1, none⟩) (fun n => if n = 0 then ⟨1, none⟩ else ⟨7, none⟩)
      rfl⟩

/-- C9: no operation ever signals failure through a partial or sentinel
value.  On any valid state, every one of the four calls yields one
well-defined value lying in the full declared range, and conversely every
64-bit word is an attainable next_uint64 output, so no value is reserved
as an error sentinel at this interface. -/
theorem calls_total_no_sentinel {σ : Type} (A : Algorithm σ)
    (hW : A.W = 64) (p : Nat) (h : Heap (BufferedState σ))
    (hbuf : ∀ v : Nat, (h p).buffer = some v → v < 2 ^ 32) :
    (callOp (construct A p) (construct A p).next_uint64 h).1 < 2 ^ 64
      ∧ (callOp (construct A p) (construct A p).next_uint32 h).1 < 2 ^ 32
      ∧ 0 ≤ (callOp (construct A p) (construct A p).next_double h).1
      ∧ (callOp (construct A p) (construct A p).next_double h).1 < 1
      ∧ (callOp (construct A p) (construct A p).next_raw h).1 < 2 ^ 64
      ∧ ∀ v : Nat, v < 2 ^ 64 →
          ∃ B : Algorithm Nat,
            (callOp (construct B 0) (construct B 0).next_uint64
              (fun _ => ⟨0, none⟩)).1 = v := by
  have hd : (A.native_draw (h p).native).1 < 2 ^ 64 := hW ▸ A.draw_lt _
  refine ⟨hd, u32_op_val_lt A (h p) hbuf, double_from_draw_nonneg _,
    double_from_draw_lt_one hd, hd, ?_⟩
  intro v hv
  exact ⟨const64 v hv, rfl⟩

/-- C9 witness: the counter algorithm on a valid state, plus the 64-bit
word 12345 shown attainable. -/
theorem calls_total_no_sentinel_witness :
    (callOp (construct ctr64 0) (construct ctr64 0).next_uint64
        (fun _ => ⟨42, none⟩)).1 < 2 ^ 64
      ∧ (callOp (construct ctr64 0) (construct ctr64 0).next_uint32
          (fun _ => ⟨42, none⟩)).1 < 2 ^ 32
      ∧ 0 ≤ (callOp (construct ctr64 0) (construct ctr64 0).next_double
          (fun _ => ⟨42, none⟩)).1
      ∧ (callOp (construct ctr64 0) (construct ctr64 0).next_double
          (fun _ => ⟨42, none⟩)).1 < 1
      ∧ (callOp (construct ctr64 0) (construct ctr64 0).next_raw
          (fun _ => ⟨42, none⟩)).1 < 2 ^ 64
      ∧ ∃ B : Algorithm Nat,
          (callOp (construct B 0) (construct B 0).next_uint64
            (fun _ => ⟨0, none⟩)).1 = 12345 := by
  have h := calls_total_no_sentinel ctr64 rfl 0 (fun _ => ⟨42, none⟩)
    (fun v hv => by cases hv)
  exact ⟨h.1, h.2.1, h.2.2.1, h.2.2.2.1, h.2.2.2.2.1,
    h.2.2.2.2.2 12345 (by norm_num)⟩

/-- C10: a call through any operation leaves every field of the record
itself unchanged and mutates only the state block at the state address:
the heap is rewritten at that one address with the mutated block and is
untouched at every other address. -/
theorem call_mutates_only_state_block {σ α : Type} (bg : bitgen_t σ)
    (f : σ → α × σ) (h : Heap σ) (a : Nat) (ha : a ≠ bg.state) :
    (callOp bg f h).2.2 = bg
      ∧ (callOp bg f h).2.1 bg.state = (f (h bg.state)).2
      ∧ (callOp bg f h).2.1 a = h a := by
  refine ⟨rfl, ?_, ?_⟩
  · exact Function.update_same _ _ _
  · exact Function.update_noteq ha _ _

/-- C10 witness: a next_uint64 call on the counter record at address 0
leaves the record intact, stores the advanced block at address 0, and
leaves address 1 untouched. -/
theorem call_mutates_only_state_block_witness :
    (callOp (construct ctr64 0) (construct ctr64 0).next_uint64
        (fun _ => ⟨3, none⟩)).2.2 = construct ctr64 0
      ∧ (callOp (construct ctr64 0) (construct ctr64 0).next_uint64
          (fun _ => ⟨3, none⟩)).2.1 (construct ctr64 0).state
          = ((construct ctr64 0).next_uint64
              ((fun _ => (⟨3, none⟩ : BufferedState Nat))
                (construct ctr64 0).state)).2
      ∧ (callOp (construct ctr64 0) (construct ctr64 0).next_uint64
          (fun _ => ⟨3, none⟩)).2.1 1
          = (fun _ => (⟨3, none⟩ : BufferedState Nat)) 1 :=
  call_mutates_only_state_block (construct ctr64 0)
    (construct ctr64 0).next_uint64 (fun _ => ⟨3, none⟩) 1 (by decide)

end Vendorized
